import Mathlib

/-!
Verification development for the geosparql-etl repository.

The development shallowly embeds the parts of the code base that the
checked properties concern:

* the geometry codec `polygon_to_wkt` of `mongodb_to_rdf.py` and of
  `mongo-etl/mongodb_to_rdf_updated.py`, over a small model of Python
  values (`JVal`) with explicit Python-style failure (`Except PyErr`);
* the `ParallelCheckpointManager` of `mongodb_to_rdf_updated.py`,
  with checkpoint files modelled at character granularity so that
  partially written trailing lines are representable;
* the batching loop and the top-level exception discipline of
  `process_analysis_worker` of `mongodb_to_rdf_updated.py`;
* the `RotatingCheckpointManager` of `mongodb_to_rdf.py`;
* `create_id_ranges` and `get_id_range_query` of
  `debug-mongo/process_null_marks.py`.

Numeric coordinates are modelled as rationals, and the fixed-point
formatting of Python is modelled exactly for the values the code
produces on the checked inputs (values at which binary floating point
arithmetic is exact and no rounding tie occurs).
-/

/-- Model of the Python values flowing through the geometry codec:
numbers (as rationals), strings, lists, and None. -/
inductive JVal where
  | num (q : ℚ)
  | str (s : String)
  | arr (l : List JVal)
  | null

/-- Kinds of Python exceptions raised by the operations the codec uses. -/
inductive PyErr where
  | typeError
  | valueError
  | indexError
deriving DecidableEq

/-- Python truthiness of a value: empty list, empty string, zero and
None are falsy. -/
def pyFalsy : JVal → Bool
  | .num q => q = 0
  | .str s => s = ""
  | .arr l => l.isEmpty
  | .null => true

/-- Python indexing `v[i]` for a non-negative index: lists and strings
index, an out-of-range index raises IndexError, other values raise
TypeError. -/
def pyIndex : JVal → Nat → Except PyErr JVal
  | .arr l, i =>
    match l.get? i with
    | some v => .ok v
    | none => .error .indexError
  | .str s, i =>
    match s.data.get? i with
    | some c => .ok (.str (String.mk [c]))
    | none => .error .indexError
  | _, _ => .error .typeError

/-- Python iteration over a value: lists yield their elements, strings
yield their characters as one-character strings, other values raise
TypeError. -/
def pyIter : JVal → Except PyErr (List JVal)
  | .arr l => .ok l
  | .str s => .ok (s.data.map fun c => .str (String.mk [c]))
  | _ => .error .typeError

/-- Scaling of a rational by a natural number, written on the raw
numerator and denominator so that it evaluates inside the kernel
(`Rat.mul` is irreducible); `qScale_eq` identifies it with `q * n`. -/
def qScale (q : ℚ) (n : Nat) : ℚ := mkRat (q.num * n) q.den

theorem qScale_eq (q : ℚ) (n : Nat) : qScale q n = q * (n : ℚ) :=
  calc mkRat (q.num * n) q.den
      = ((q.num * n : ℤ) : ℚ) / (q.den : ℚ) := Rat.mkRat_eq_div _ _
    _ = ((q.num : ℚ) / q.den) * n := by push_cast; ring
    _ = q * n := by rw [Rat.num_div_den]

/-- Python multiplication `v * n` with an int `n`: numbers multiply,
strings and lists repeat, None raises TypeError. -/
def pyMulNat : JVal → Nat → Except PyErr JVal
  | .num q, n => .ok (.num (qScale q n))
  | .str s, n => .ok (.str (String.join (List.replicate n s)))
  | .arr l, n => .ok (.arr (List.flatten (List.replicate n l)))
  | .null, _ => .error .typeError

/-- Python tuple unpacking `x, y = v` of a length-two value: a
two-element list or two-character string unpacks, other lengths raise
ValueError, non-iterables raise TypeError. -/
def pyUnpack2 : JVal → Except PyErr (JVal × JVal)
  | .arr [a, b] => .ok (a, b)
  | .arr _ => .error .valueError
  | .str s =>
    match s.data with
    | [c1, c2] => .ok (.str (String.mk [c1]), .str (String.mk [c2]))
    | _ => .error .valueError
  | _ => .error .typeError

/-- Two decimal digits with a leading zero, the tail of the fixed-point
rendering of a number. -/
def twoDigits (m : Nat) : String :=
  if m < 10 then "0" ++ toString m else toString m

/-- Model of the Python format specifier `.2f` on a number: round to
the nearest hundredth (the floor of `100 q + 1 / 2`, computed on the
raw numerator and denominator so that it evaluates inside the kernel;
`fmt2_round_eq_floor` checks the identification) and print with
exactly two decimals.  It agrees with CPython wherever the value is
exactly representable in binary floating point and does not sit on a
rounding tie; every value the checked properties exercise is of that
form. -/
def fmt2 (q : ℚ) : String :=
  let n : ℤ := Int.fdiv (200 * q.num + (q.den : ℤ)) (2 * (q.den : ℤ))
  let a : Nat := n.natAbs
  (if n < 0 then "-" else "") ++ toString (a / 100) ++ "." ++ twoDigits (a % 100)

theorem fmt2_round_eq_floor (q : ℚ) :
    Int.fdiv (200 * q.num + (q.den : ℤ)) (2 * (q.den : ℤ)) = ⌊q * 100 + 1 / 2⌋ := by
  have hdq : ((q.den : ℕ) : ℚ) ≠ 0 := by
    exact_mod_cast q.den_nz
  have hnum := Rat.num_div_den q
  rw [div_eq_iff hdq] at hnum
  have hd0 : (0 : ℤ) ≤ 2 * (q.den : ℤ) := by positivity
  rw [Int.fdiv_eq_ediv _ hd0]
  have h2 : (2 * (q.den : ℤ)) = ((2 * q.den : ℕ) : ℤ) := by push_cast; ring
  rw [h2, ← Rat.floor_intCast_div_natCast]
  congr 1
  have hden2 : ((2 * q.den : ℕ) : ℚ) ≠ 0 := by
    push_cast
    intro hcon
    rcases mul_eq_zero.mp hcon with hcase | hcase
    · norm_num at hcase
    · exact hdq hcase
  rw [div_eq_iff hden2]
  push_cast
  rw [hnum]
  ring

/-- Python formatting `.2f` as an operation on values: numbers format,
strings raise ValueError, lists and None raise TypeError. -/
def pyFormat2f : JVal → Except PyErr String
  | .num q => .ok (fmt2 q)
  | .str _ => .error .valueError
  | _ => .error .typeError

/-- A GeoJSON-like geometry dict: its optional `type` and
`coordinates` entries.  `Option PGeom` with `none` stands for a falsy
geometry argument (None or an empty dict). -/
structure PGeom where
  type? : Option JVal
  coordinates? : Option JVal

/-- The guard `geometry.get("type") != "Polygon"` of both codec
variants, as the positive test. -/
def typeIsPolygon (g : PGeom) : Bool :=
  match g.type? with
  | some (JVal.str s) => s == "Polygon"
  | _ => false

/-- The ring-closing step shared by both codec variants: when the list
of formatted coordinate pairs is non-empty and its first and last
entries differ, the first entry is appended again. -/
def closeRing (l : List String) : List String :=
  match l.head?, l.getLast? with
  | some a, some b => if a ≠ b then l ++ [a] else l
  | _, _ => l

/-- Wrapping of the joined coordinate pairs into the final WKT string. -/
def wktWrap (l : List String) : String :=
  "POLYGON ((" ++ String.intercalate ", " l ++ "))"

namespace MongodbToRdf

/-- `denormalize_coordinates` of `mongodb_to_rdf.py`: for each
coordinate pair, index out the two components and scale them by the
image dimensions, collecting `[x, y]` lists. -/
def denormalize_coordinates (ring : List JVal) (image_width image_height : Nat) :
    Except PyErr (List JVal) :=
  ring.mapM fun coord_pair => do
    let x0 ← pyIndex coord_pair 0
    let x ← pyMulNat x0 image_width
    let y0 ← pyIndex coord_pair 1
    let y ← pyMulNat y0 image_height
    pure (JVal.arr [x, y])

/-- The body of the WKT-building loop of `mongodb_to_rdf.py`: unpack a
denormalized pair and format its components with `.2f`. -/
def formatPair (p : JVal) : Except PyErr String := do
  let (x, y) ← pyUnpack2 p
  let fx ← pyFormat2f x
  let fy ← pyFormat2f y
  pure (fx ++ " " ++ fy)

/-- `polygon_to_wkt` of `mongodb_to_rdf.py`.  The source has no
exception handler, so the embedding returns `Except`: `.ok none` is
the explicit `return None` paths, `.error` is a raised exception. -/
def polygon_to_wkt (geometry : Option PGeom) (image_width image_height : Nat) :
    Except PyErr (Option String) :=
  match geometry with
  | none => .ok none
  | some g =>
    if typeIsPolygon g then
      match pyIndex (g.coordinates?.getD (JVal.arr [JVal.arr []])) 0 with
      | .error e => .error e
      | .ok coords =>
        if pyFalsy coords then .ok none
        else
          match pyIter coords with
          | .error e => .error e
          | .ok ring =>
            match denormalize_coordinates ring image_width image_height with
            | .error e => .error e
            | .ok denorm =>
              match denorm.mapM formatPair with
              | .error e => .error e
              | .ok wkt_coords => .ok (some (wktWrap (closeRing wkt_coords)))
    else .ok none

end MongodbToRdf

namespace MongodbToRdfUpdated

/-- The loop body of `polygon_to_wkt` of `mongodb_to_rdf_updated.py`:
unpack a raw pair, scale both components and format them with `.2f`. -/
def scaleAndFormat (image_width image_height : Nat) (coord_pair : JVal) :
    Except PyErr String := do
  let (x, y) ← pyUnpack2 coord_pair
  let px ← pyMulNat x image_width
  let py ← pyMulNat y image_height
  let fx ← pyFormat2f px
  let fy ← pyFormat2f py
  pure (fx ++ " " ++ fy)

/-- The `try` body of `polygon_to_wkt` of `mongodb_to_rdf_updated.py`. -/
def polygon_to_wkt_body (geometry : Option PGeom) (image_width image_height : Nat) :
    Except PyErr (Option String) :=
  match geometry with
  | none => .ok none
  | some g =>
    if typeIsPolygon g then
      match pyIndex (g.coordinates?.getD (JVal.arr [JVal.arr []])) 0 with
      | .error e => .error e
      | .ok coords =>
        if pyFalsy coords then .ok none
        else
          match pyIter coords with
          | .error e => .error e
          | .ok ring =>
            match ring.mapM (scaleAndFormat image_width image_height) with
            | .error e => .error e
            | .ok wkt_coords => .ok (some (wktWrap (closeRing wkt_coords)))
    else .ok none

/-- `polygon_to_wkt` of `mongodb_to_rdf_updated.py`: the whole body is
wrapped in a bare `try`/`except` returning None, so every raised
exception becomes None. -/
def polygon_to_wkt (geometry : Option PGeom) (image_width image_height : Nat) :
    Option String :=
  match polygon_to_wkt_body geometry image_width image_height with
  | .ok r => r
  | .error _ => none

end MongodbToRdfUpdated

/-- Encoding of a numeric coordinate pair as the codec receives it. -/
def pairEnc (p : ℚ × ℚ) : JVal :=
  JVal.arr [JVal.num p.1, JVal.num p.2]

/-- A well-formed polygon input: declared type Polygon, and the
coordinates hold a non-empty outer ring of numeric pairs (further
rings, which the code ignores, may follow). -/
def WFPoly (g : PGeom) (ring : List (ℚ × ℚ)) (rest : List JVal) : Prop :=
  g.type? = some (JVal.str "Polygon") ∧
  g.coordinates? = some (JVal.arr (JVal.arr (ring.map pairEnc) :: rest)) ∧
  ring ≠ []

/-- The codec behaviour the specification describes, written from its
words: scale each pair by the image dimensions, format with two
decimals, close the ring, join with a comma and wrap. -/
def wktSpec (ring : List (ℚ × ℚ)) (image_width image_height : Nat) : String :=
  wktWrap (closeRing (ring.map fun p =>
    fmt2 (p.1 * image_width) ++ " " ++ fmt2 (p.2 * image_height)))

theorem mapM_map_ok {α β γ : Type} (f : β → Except PyErr γ) (enc : α → β)
    (g : α → γ) (h : ∀ a, f (enc a) = .ok (g a)) (l : List α) :
    (l.map enc).mapM f = .ok (l.map g) := by
  induction l with
  | nil => rfl
  | cons a t ih =>
    simp only [List.map_cons, List.mapM_cons, h a, ih]
    rfl

theorem denormalize_coordinates_wf (ring : List (ℚ × ℚ)) (w h : Nat) :
    MongodbToRdf.denormalize_coordinates (ring.map pairEnc) w h =
      .ok (ring.map fun p => JVal.arr [JVal.num (qScale p.1 w), JVal.num (qScale p.2 h)]) := by
  apply mapM_map_ok
  intro a
  rfl

theorem formatPair_num (x y : ℚ) :
    MongodbToRdf.formatPair (JVal.arr [JVal.num x, JVal.num y]) =
      .ok (fmt2 x ++ " " ++ fmt2 y) := rfl

theorem polygon_to_wkt_wf (g : PGeom) (ring : List (ℚ × ℚ)) (rest : List JVal)
    (w h : Nat) (hwf : WFPoly g ring rest) :
    MongodbToRdf.polygon_to_wkt (some g) w h = .ok (some (wktSpec ring w h)) := by
  obtain ⟨hty, hco, hne⟩ := hwf
  have hmapne : ring.map pairEnc ≠ [] := by
    simpa using hne
  have htyb : typeIsPolygon g = true := by
    simp [typeIsPolygon, hty]
  have hidx : pyIndex (JVal.arr (JVal.arr (ring.map pairEnc) :: rest)) 0 =
      .ok (JVal.arr (ring.map pairEnc)) := rfl
  have hfalsy : pyFalsy (JVal.arr (ring.map pairEnc)) = false := by
    simp [pyFalsy, List.isEmpty_iff, hmapne]
  have hiter : pyIter (JVal.arr (ring.map pairEnc)) = .ok (ring.map pairEnc) := rfl
  have hdenorm := denormalize_coordinates_wf ring w h
  have hfmt := mapM_map_ok MongodbToRdf.formatPair
    (fun p : ℚ × ℚ => JVal.arr [JVal.num (qScale p.1 w), JVal.num (qScale p.2 h)])
    (fun p : ℚ × ℚ => fmt2 (qScale p.1 w) ++ " " ++ fmt2 (qScale p.2 h))
    (fun a => rfl) ring
  simp only [MongodbToRdf.polygon_to_wkt, htyb, if_true, hco, Option.getD_some, hidx,
    hfalsy, Bool.false_eq_true, if_false, hiter, hdenorm, hfmt]
  simp only [wktSpec, qScale_eq]

/-- The unit square ring of the end-to-end example. -/
def squareRing : List (ℚ × ℚ) := [(0, 0), (1, 0), (1, 1), (0, 1)]

/-- The unit square polygon geometry of the end-to-end example. -/
def squareGeom : PGeom :=
  { type? := some (JVal.str "Polygon"),
    coordinates? := some (JVal.arr [JVal.arr (squareRing.map pairEnc)]) }

/-- Claim C5: on a well-formed polygon the codec scales every pair by
the image dimensions, formats each component with two decimals, joins
with a comma and wraps into a closed POLYGON string; on the unit
square at width = height = 100 the output is exactly the expected
closed WKT string. -/
theorem c5_theorem :
    (∀ (g : PGeom) (ring : List (ℚ × ℚ)) (rest : List JVal) (w h : Nat),
      WFPoly g ring rest →
      MongodbToRdf.polygon_to_wkt (some g) w h = .ok (some (wktSpec ring w h))) ∧
    MongodbToRdf.polygon_to_wkt (some squareGeom) 100 100 =
      .ok (some "POLYGON ((0.00 0.00, 100.00 0.00, 100.00 100.00, 0.00 100.00, 0.00 0.00))") := by
  constructor
  · exact polygon_to_wkt_wf
  · rfl

/-- Witness for C5: the general statement applied to a concrete
triangle ring at width 10, height 20. -/
theorem c5_witness :
    MongodbToRdf.polygon_to_wkt
      (some { type? := some (JVal.str "Polygon"),
              coordinates? := some (JVal.arr [JVal.arr ([((0 : ℚ), (0 : ℚ)), (1, 0), (1, 1)].map pairEnc)]) })
      10 20 =
      .ok (some (wktSpec [((0 : ℚ), (0 : ℚ)), (1, 0), (1, 1)] 10 20)) :=
  c5_theorem.1 _ [((0 : ℚ), (0 : ℚ)), (1, 0), (1, 1)] [] 10 20 ⟨rfl, rfl, by decide⟩

/-- The formatted coordinate pairs of a ring before closing, written
the way the specification describes the codec output. -/
def fmtRing (ring : List (ℚ × ℚ)) (image_width image_height : Nat) : List String :=
  ring.map fun p => fmt2 (p.1 * image_width) ++ " " ++ fmt2 (p.2 * image_height)

theorem wktSpec_eq_fmtRing (ring : List (ℚ × ℚ)) (w h : Nat) :
    wktSpec ring w h = wktWrap (closeRing (fmtRing ring w h)) := rfl

theorem closeRing_of_head_eq_last (l : List String) (h : l.head? = l.getLast?) :
    closeRing l = l := by
  unfold closeRing
  rcases hh : l.head? with _ | a
  · rfl
  · rw [hh] at h
    rw [← h]
    simp

theorem closeRing_closed (l : List String) (hne : l ≠ []) :
    (closeRing l).head? = (closeRing l).getLast? := by
  rcases l with _ | ⟨a, t⟩
  · exact absurd rfl hne
  · have hsome : (a :: t).getLast?.isSome := by
      rw [List.getLast?_isSome]
      exact List.cons_ne_nil a t
    rcases hg : (a :: t).getLast? with _ | b
    · rw [hg] at hsome
      simp at hsome
    · unfold closeRing
      rw [show (a :: t).head? = some a from rfl, hg]
      by_cases hab : a = b
      · subst hab
        simp [hg]
      · simp only [ne_eq, hab, not_false_eq_true, if_true, closeRing, List.head?_cons,
          List.cons_append, hg]
        rw [show a :: (t ++ [a]) = (a :: t) ++ [a] from rfl, List.getLast?_concat]

/-- Claim C6: on a well-formed polygon whose first and last ring
points differ, the returned WKT coordinate list has equal first and
last pairs (the ring is closed); on an already closed ring no point is
appended and the output has exactly as many coordinate pairs as the
input ring. -/
theorem c6_theorem (g : PGeom) (ring : List (ℚ × ℚ)) (rest : List JVal)
    (w h : Nat) (hwf : WFPoly g ring rest) :
    MongodbToRdf.polygon_to_wkt (some g) w h =
      .ok (some (wktWrap (closeRing (fmtRing ring w h)))) ∧
    (ring.head? ≠ ring.getLast? →
      (closeRing (fmtRing ring w h)).head? = (closeRing (fmtRing ring w h)).getLast?) ∧
    (ring.head? = ring.getLast? →
      closeRing (fmtRing ring w h) = fmtRing ring w h ∧
      (closeRing (fmtRing ring w h)).length = ring.length) := by
  have hne : ring ≠ [] := hwf.2.2
  have hfne : fmtRing ring w h ≠ [] := by
    simp [fmtRing]
    exact hne
  refine ⟨?_, ?_, ?_⟩
  · rw [← wktSpec_eq_fmtRing]
    exact polygon_to_wkt_wf g ring rest w h hwf
  · intro _
    exact closeRing_closed _ hfne
  · intro heq
    have hclose : closeRing (fmtRing ring w h) = fmtRing ring w h := by
      apply closeRing_of_head_eq_last
      unfold fmtRing
      rw [List.head?_map, List.getLast?_map, heq]
    exact ⟨hclose, by rw [hclose]; simp [fmtRing]⟩

/-- Witness for C6: the theorem applied to a concrete open two-point
ring, giving a closed output list. -/
theorem c6_witness :
    (closeRing (fmtRing [((0 : ℚ), (0 : ℚ)), (1, 0)] 10 10)).head? =
      (closeRing (fmtRing [((0 : ℚ), (0 : ℚ)), (1, 0)] 10 10)).getLast? :=
  (c6_theorem
    { type? := some (JVal.str "Polygon"),
      coordinates? := some (JVal.arr [JVal.arr ([((0 : ℚ), (0 : ℚ)), (1, 0)].map pairEnc)]) }
    [((0 : ℚ), (0 : ℚ)), (1, 0)] [] 10 10 ⟨rfl, rfl, by decide⟩).2.1 (by decide)

/-- Is a value a Python number. -/
def isNum : JVal → Bool
  | .num _ => true
  | _ => false

/-- The malformed inputs the specification enumerates for the codec:
a falsy geometry, a non-Polygon type, a missing `coordinates` entry,
an empty coordinates list, an empty outer ring, or a coordinate pair
with a non-numeric component. -/
def Malformed (g : Option PGeom) : Prop :=
  g = none ∨
  (∃ g0, g = some g0 ∧ typeIsPolygon g0 = false) ∨
  (∃ g0, g = some g0 ∧ g0.coordinates? = none) ∨
  (∃ g0, g = some g0 ∧ g0.coordinates? = some (JVal.arr [])) ∨
  (∃ g0 rest, g = some g0 ∧ g0.coordinates? = some (JVal.arr (JVal.arr [] :: rest))) ∨
  (∃ g0 ring rest, g = some g0 ∧
    g0.coordinates? = some (JVal.arr (JVal.arr ring :: rest)) ∧
    ∃ p ∈ ring, ∃ v w, p = JVal.arr [v, w] ∧ (isNum v = false ∨ isNum w = false))

/-- The subset of the malformed inputs that both codec variants turn
into None through their explicit guards, without raising. -/
def MalformedGuard (g : Option PGeom) : Prop :=
  g = none ∨
  (∃ g0, g = some g0 ∧ typeIsPolygon g0 = false) ∨
  (∃ g0, g = some g0 ∧ g0.coordinates? = none) ∨
  (∃ g0 rest, g = some g0 ∧ g0.coordinates? = some (JVal.arr (JVal.arr [] :: rest)))

theorem mapM_error {α β : Type} (f : α → Except PyErr β) (l : List α)
    (hx : ∃ x ∈ l, ∃ e, f x = .error e) : ∃ e2, l.mapM f = .error e2 := by
  induction l with
  | nil => simp at hx
  | cons a t ih =>
    rcases hx with ⟨x, hmem, e, hfx⟩
    rcases List.mem_cons.mp hmem with rfl | hmem2
    · exact ⟨e, by rw [List.mapM_cons, hfx]; rfl⟩
    · cases hfa : f a with
      | error e2 => exact ⟨e2, by rw [List.mapM_cons, hfa]; rfl⟩
      | ok b =>
        rcases ih ⟨x, hmem2, e, hfx⟩ with ⟨e3, he3⟩
        exact ⟨e3, by rw [List.mapM_cons, hfa, he3]; rfl⟩

theorem scaleAndFormat_bad (wd ht : Nat) (v w : JVal)
    (hbad : isNum v = false ∨ isNum w = false) :
    ∃ e, MongodbToRdfUpdated.scaleAndFormat wd ht (JVal.arr [v, w]) = .error e := by
  cases v <;> cases w <;>
    simp [isNum] at hbad <;>
    exact ⟨_, rfl⟩

/-- Compact description of the updated codec result as a function of
the body result. -/
theorem updated_wkt_of_body (g : Option PGeom) (w h : Nat) :
    MongodbToRdfUpdated.polygon_to_wkt g w h =
      (MongodbToRdfUpdated.polygon_to_wkt_body g w h).toOption.join := by
  unfold MongodbToRdfUpdated.polygon_to_wkt
  cases MongodbToRdfUpdated.polygon_to_wkt_body g w h <;> rfl

theorem updated_malformed_none (g : Option PGeom) (w h : Nat) (hm : Malformed g) :
    MongodbToRdfUpdated.polygon_to_wkt g w h = none := by
  rcases hm with rfl | ⟨g0, rfl, hty⟩ | ⟨g0, rfl, hco⟩ | ⟨g0, rfl, hco⟩ |
    ⟨g0, rest, rfl, hco⟩ | ⟨g0, ring, rest, rfl, hco, p, hp, v, vv, hpv, hbad⟩
  · rfl
  · simp [MongodbToRdfUpdated.polygon_to_wkt, MongodbToRdfUpdated.polygon_to_wkt_body, hty]
  · simp [MongodbToRdfUpdated.polygon_to_wkt, MongodbToRdfUpdated.polygon_to_wkt_body, hco]
    cases typeIsPolygon g0 <;> simp [pyIndex, pyFalsy]
  · simp [MongodbToRdfUpdated.polygon_to_wkt, MongodbToRdfUpdated.polygon_to_wkt_body, hco]
    cases typeIsPolygon g0 <;> simp [pyIndex]
  · simp [MongodbToRdfUpdated.polygon_to_wkt, MongodbToRdfUpdated.polygon_to_wkt_body, hco]
    cases typeIsPolygon g0 <;> simp [pyIndex, pyFalsy]
  · subst hpv
    rcases mapM_error (MongodbToRdfUpdated.scaleAndFormat w h) ring
      ⟨_, hp, scaleAndFormat_bad w h v vv hbad⟩ with ⟨e, hmape⟩
    have hne : ring ≠ [] := List.ne_nil_of_mem hp
    have hmape2 : List.mapM.loop (MongodbToRdfUpdated.scaleAndFormat w h) ring [] =
        Except.error e := hmape
    simp [MongodbToRdfUpdated.polygon_to_wkt, MongodbToRdfUpdated.polygon_to_wkt_body, hco]
    cases typeIsPolygon g0 <;>
      simp [pyIndex, pyFalsy, pyIter, hmape, hmape2, List.isEmpty_iff, hne]

theorem base_malformed_guard_none (g : Option PGeom) (w h : Nat)
    (hm : MalformedGuard g) : MongodbToRdf.polygon_to_wkt g w h = .ok none := by
  rcases hm with rfl | ⟨g0, rfl, hty⟩ | ⟨g0, rfl, hco⟩ | ⟨g0, rest, rfl, hco⟩
  · rfl
  · simp [MongodbToRdf.polygon_to_wkt, hty]
  · simp [MongodbToRdf.polygon_to_wkt, hco]
    cases typeIsPolygon g0 <;> simp [pyIndex, pyFalsy]
  · simp [MongodbToRdf.polygon_to_wkt, hco]
    cases typeIsPolygon g0 <;> simp [pyIndex, pyFalsy]

/-- A polygon-typed geometry whose single coordinate pair holds
strings instead of numbers. -/
def badPairGeom : PGeom :=
  { type? := some (JVal.str "Polygon"),
    coordinates? := some (JVal.arr [JVal.arr [JVal.arr [JVal.str "a", JVal.str "b"]]]) }

/-- Counterexample to claim C4 as stated: on a malformed input with
non-numeric coordinate values, the `polygon_to_wkt` of
`mongodb_to_rdf.py` raises a ValueError (modelled as `.error`) rather
than returning None. -/
theorem c4_counterexample :
    Malformed (some badPairGeom) ∧
    MongodbToRdf.polygon_to_wkt (some badPairGeom) 100 100 = .error PyErr.valueError := by
  constructor
  · refine Or.inr (Or.inr (Or.inr (Or.inr (Or.inr ?_))))
    exact ⟨badPairGeom, [JVal.arr [JVal.str "a", JVal.str "b"]], [], rfl, rfl,
      JVal.arr [JVal.str "a", JVal.str "b"], by simp, JVal.str "a", JVal.str "b",
      rfl, Or.inl rfl⟩
  · rfl

/-- Claim C4 (amended): the updated codec of
`mongodb_to_rdf_updated.py` returns None on every malformed input (it
wraps the whole body in a bare exception handler), while the codec of
`mongodb_to_rdf.py` returns None only for the guard-checked malformed
inputs (falsy or non-Polygon geometry, missing coordinates, empty
outer ring) and raises on the remaining ones. -/
theorem c4_theorem :
    (∀ (g : Option PGeom) (w h : Nat), Malformed g →
      MongodbToRdfUpdated.polygon_to_wkt g w h = none) ∧
    (∀ (g : Option PGeom) (w h : Nat), MalformedGuard g →
      MongodbToRdf.polygon_to_wkt g w h = .ok none) :=
  ⟨updated_malformed_none, base_malformed_guard_none⟩

/-- Witness for C4: the amended theorem applied to the string-pair
geometry for the updated codec, and to a Point-typed geometry for the
base codec. -/
theorem c4_witness :
    MongodbToRdfUpdated.polygon_to_wkt (some badPairGeom) 100 100 = none ∧
    MongodbToRdf.polygon_to_wkt
      (some { type? := some (JVal.str "Point"), coordinates? := none }) 100 100 =
      .ok none := by
  constructor
  · apply c4_theorem.1
    refine Or.inr (Or.inr (Or.inr (Or.inr (Or.inr ?_))))
    exact ⟨badPairGeom, [JVal.arr [JVal.str "a", JVal.str "b"]], [], rfl, rfl,
      JVal.arr [JVal.str "a", JVal.str "b"], by simp, JVal.str "a", JVal.str "b",
      rfl, Or.inl rfl⟩
  · apply c4_theorem.2
    exact Or.inr (Or.inl ⟨_, rfl, rfl⟩)

/-- Python whitespace as stripped by `str.strip()`. -/
def isWs (c : Char) : Bool :=
  c == ' ' || c == '\t' || c == '\n' || c == '\r' ||
  c == Char.ofNat 11 || c == Char.ofNat 12

/-- `line.strip()` on the characters of a line. -/
def trimWs (l : List Char) : List Char :=
  ((l.dropWhile isWs).reverse.dropWhile isWs).reverse

/-- Splitting of a character stream into newline-separated pieces, the
shape Python file line iteration exposes (the trailing piece is the
text after the last newline). -/
def splitNl : List Char → List (List Char)
  | [] => [[]]
  | c :: cs =>
    if c = '\n' then [] :: splitNl cs
    else
      match splitNl cs with
      | [] => [[c]]
      | l :: ls => (c :: l) :: ls

theorem splitNl_ne_nil (s : List Char) : splitNl s ≠ [] := by
  induction s with
  | nil => simp [splitNl]
  | cons c cs ih =>
    unfold splitNl
    by_cases hc : c = '\n'
    · simp [hc]
    · rw [if_neg hc]
      cases hs : splitNl cs <;> simp

theorem splitNl_no_newline (s : List Char) (h : '\n' ∉ s) : splitNl s = [s] := by
  induction s with
  | nil => rfl
  | cons c cs ih =>
    have hc : c ≠ '\n' := fun e => h (e ▸ List.mem_cons_self c cs)
    have hcs : '\n' ∉ cs := fun m => h (List.mem_cons_of_mem c m)
    unfold splitNl
    rw [if_neg hc, ih hcs]

theorem splitNl_line_prepend (k t : List Char) (h : '\n' ∉ k) :
    splitNl (k ++ '\n' :: t) = k :: splitNl t := by
  induction k with
  | nil =>
    simp [splitNl]
  | cons c cs ih =>
    have hc : c ≠ '\n' := fun e => h (e ▸ List.mem_cons_self c cs)
    have hcs : '\n' ∉ cs := fun m => h (List.mem_cons_of_mem c m)
    rw [List.cons_append]
    rw [show splitNl (c :: (cs ++ '\n' :: t)) =
        (if c = '\n' then [] :: splitNl (cs ++ '\n' :: t)
         else match splitNl (cs ++ '\n' :: t) with
         | [] => [[c]]
         | l :: ls => (c :: l) :: ls) from rfl]
    rw [if_neg hc, ih hcs]

/-- `ParallelCheckpointManager._load_set`: read the file line by line,
strip each line, and keep the non-empty results. -/
def load_set (content : List Char) : List (List Char) :=
  ((splitNl content).map trimWs).filter fun l => !l.isEmpty

/-- A key as the pipeline writes them: non-empty, newline-free and
untouched by stripping. -/
def wfKey (k : List Char) : Prop :=
  k ≠ [] ∧ '\n' ∉ k ∧ trimWs k = k

/-- The contents of an append-only checkpoint file holding the given
complete (newline-terminated) lines. -/
def joinLines (keys : List (List Char)) : List Char :=
  (keys.map fun k => k ++ ['\n']).flatten

instance wfKeyDecidable (k : List Char) : Decidable (wfKey k) :=
  decidable_of_iff (k ≠ [] ∧ '\n' ∉ k ∧ trimWs k = k) Iff.rfl

theorem load_set_join_frag (keys : List (List Char)) (frag : List Char)
    (hkeys : ∀ k ∈ keys, wfKey k) (hfrag : '\n' ∉ frag) :
    load_set (joinLines keys ++ frag) =
      keys ++ (if trimWs frag = [] then [] else [trimWs frag]) := by
  induction keys with
  | nil =>
    simp only [joinLines, List.map_nil, List.flatten_nil, List.nil_append,
      List.nil_append]
    rw [load_set, splitNl_no_newline frag hfrag]
    by_cases hT : trimWs frag = []
    · simp [hT]
    · simp [hT, List.isEmpty_iff]
  | cons k ks ih =>
    have hwfk := hkeys k (List.mem_cons_self k ks)
    have hrest : ∀ k0 ∈ ks, wfKey k0 := fun k0 hm => hkeys k0 (List.mem_cons_of_mem k hm)
    have hsplit : joinLines (k :: ks) ++ frag = k ++ '\n' :: (joinLines ks ++ frag) := by
      simp [joinLines, List.append_assoc]
    have htail := ih hrest
    simp only [load_set] at htail
    rw [hsplit, load_set, splitNl_line_prepend _ _ hwfk.2.1]
    simp only [List.map_cons, List.filter_cons, hwfk.2.2]
    have hkne : (!k.isEmpty) = true := by
      simp [List.isEmpty_iff]
      exact hwfk.1
    rw [hkne]
    simp only [if_true, htail]
    simp

namespace MongodbToRdfUpdated

/-- The three checkpoint files of a checkpoint directory, at character
granularity; `none` for the in-progress file means it does not exist. -/
structure CFS where
  completedFile : List Char
  failedFile : List Char
  inProgressFile : Option (List Char)

/-- The in-memory state of a `ParallelCheckpointManager`: the
completed and failed id sets loaded at construction (Python sets,
modelled as lists queried by membership). -/
structure ParallelCheckpointManager where
  completed : List (List Char)
  failed : List (List Char)

/-- `ParallelCheckpointManager.__init__`: load the completed and
failed sets from their files and delete the in-progress file when it
exists (the result is the same when it does not). -/
def checkpoint_init (fs : CFS) : ParallelCheckpointManager × CFS :=
  ({ completed := load_set fs.completedFile, failed := load_set fs.failedFile },
   { fs with inProgressFile := none })

/-- `should_process`: true iff the id is in neither loaded set. -/
def should_process (m : ParallelCheckpointManager) (analysis_id : List Char) : Bool :=
  decide (analysis_id ∉ m.completed) && decide (analysis_id ∉ m.failed)

/-- `mark_completed`: append the id and a newline to the completed
file; the in-memory sets are not touched. -/
def mark_completed (fs : CFS) (analysis_id : List Char) : CFS :=
  { fs with completedFile := fs.completedFile ++ (analysis_id ++ ['\n']) }

/-- `mark_failed`: append `id|error` and a newline to the failed file. -/
def mark_failed (fs : CFS) (analysis_id err : List Char) : CFS :=
  { fs with failedFile := fs.failedFile ++ (analysis_id ++ '|' :: err ++ ['\n']) }

/-- The line `mark_in_progress` writes. -/
def in_progress_entry (analysis_id worker_id timestamp : List Char) : List Char :=
  analysis_id ++ '|' :: ("worker_".data ++ worker_id) ++ '|' :: (timestamp ++ ['\n'])

/-- `mark_in_progress`: append the entry to the in-progress file,
creating it when absent. -/
def mark_in_progress (fs : CFS) (analysis_id worker_id timestamp : List Char) : CFS :=
  let old := fs.inProgressFile.getD []
  { fs with inProgressFile := some (old ++ in_progress_entry analysis_id worker_id timestamp) }

/-- The checkpoint steps at the start of `process_analysis_worker`
(lines 477 to 479): construct a fresh manager over the shared
checkpoint directory, then record the own in-progress entry. -/
def worker_checkpoint_setup (fs : CFS) (analysis_id worker_id timestamp : List Char) :
    ParallelCheckpointManager × CFS :=
  let p := checkpoint_init fs
  (p.1, mark_in_progress p.2 analysis_id worker_id timestamp)

end MongodbToRdfUpdated

/-- Counterexample to claim C8 as stated: loading a completed file
whose last line is the truncated fragment `c` does not give exactly
the fully written keys `a`, `b` — the fragment is loaded as a key. -/
theorem c8_counterexample :
    (MongodbToRdfUpdated.checkpoint_init
        { completedFile := ['a', '\n', 'b', '\n', 'c'], failedFile := [],
          inProgressFile := none }).1.completed ≠ [['a'], ['b']] ∧
    ['c'] ∈ (MongodbToRdfUpdated.checkpoint_init
        { completedFile := ['a', '\n', 'b', '\n', 'c'], failedFile := [],
          inProgressFile := none }).1.completed := by
  constructor
  · decide
  · decide

/-- Claim C8 (amended): constructing the manager over a completed file
with a partially written last line never raises (the loader is total),
and the loaded completed set is every non-empty stripped line: the
fully written keys followed by the trailing fragment when its stripped
form is non-empty, so a truncated trailing line is loaded as a
spurious key rather than treated as absent. -/
theorem c8_theorem (keys : List (List Char)) (frag ffile : List Char)
    (ip : Option (List Char)) (hkeys : ∀ k ∈ keys, wfKey k) (hfrag : '\n' ∉ frag) :
    (MongodbToRdfUpdated.checkpoint_init
        { completedFile := joinLines keys ++ frag, failedFile := ffile,
          inProgressFile := ip }).1.completed =
      keys ++ (if trimWs frag = [] then [] else [trimWs frag]) :=
  load_set_join_frag keys frag hkeys hfrag

/-- Witness for C8: the amended theorem applied to keys `a`, `b` and
trailing fragment `c`. -/
theorem c8_witness :
    (MongodbToRdfUpdated.checkpoint_init
        { completedFile := joinLines [['a'], ['b']] ++ ['c'], failedFile := [],
          inProgressFile := none }).1.completed = [['a'], ['b'], ['c']] := by
  have h := c8_theorem [['a'], ['b']] ['c'] [] none (by decide) (by decide)
  simpa using h

/-- Counterexample to claim C2 as stated: on an initially empty store,
after two `mark_completed` calls for key `a` the same manager instance
still answers `should_process = true` (the in-memory sets are not
updated by `mark_completed`), even though both appends reached the
completed file. -/
theorem c2_counterexample :
    MongodbToRdfUpdated.should_process
      (MongodbToRdfUpdated.checkpoint_init
        { completedFile := [], failedFile := [], inProgressFile := none }).1 ['a'] = true ∧
    (MongodbToRdfUpdated.mark_completed
      (MongodbToRdfUpdated.mark_completed
        (MongodbToRdfUpdated.checkpoint_init
          { completedFile := [], failedFile := [], inProgressFile := none }).2 ['a'])
      ['a']).completedFile = ['a', '\n', 'a', '\n'] := by
  constructor
  · decide
  · decide

/-- Claim C2 (amended): `mark_completed` only appends to the completed
file (the failed and in-progress files, and the in-memory sets of any
live manager instance, are untouched), the duplicate append is
idempotent with respect to the loaded set, and a freshly constructed
manager loaded from the files after one or two `mark_completed(k)`
calls answers `should_process(k) = false`; the same live instance
keeps its construction-time answer. -/
theorem c2_theorem (keys0 : List (List Char)) (ffile : List Char)
    (ip : Option (List Char)) (k : List Char)
    (hkeys : ∀ k0 ∈ keys0, wfKey k0) (hk : wfKey k) :
    (MongodbToRdfUpdated.mark_completed
        { completedFile := joinLines keys0, failedFile := ffile, inProgressFile := ip }
        k).failedFile = ffile ∧
    (MongodbToRdfUpdated.mark_completed
        { completedFile := joinLines keys0, failedFile := ffile, inProgressFile := ip }
        k).inProgressFile = ip ∧
    load_set (MongodbToRdfUpdated.mark_completed
        { completedFile := joinLines keys0, failedFile := ffile, inProgressFile := ip }
        k).completedFile = keys0 ++ [k] ∧
    load_set (MongodbToRdfUpdated.mark_completed (MongodbToRdfUpdated.mark_completed
        { completedFile := joinLines keys0, failedFile := ffile, inProgressFile := ip }
        k) k).completedFile = keys0 ++ [k] ++ [k] ∧
    MongodbToRdfUpdated.should_process
      (MongodbToRdfUpdated.checkpoint_init (MongodbToRdfUpdated.mark_completed
        { completedFile := joinLines keys0, failedFile := ffile, inProgressFile := ip }
        k)).1 k = false ∧
    MongodbToRdfUpdated.should_process
      (MongodbToRdfUpdated.checkpoint_init
        (MongodbToRdfUpdated.mark_completed (MongodbToRdfUpdated.mark_completed
          { completedFile := joinLines keys0, failedFile := ffile, inProgressFile := ip }
          k) k)).1 k = false := by
  have hjoin1 : joinLines keys0 ++ (k ++ ['\n']) = joinLines (keys0 ++ [k]) := by
    simp [joinLines]
  have hjoin2 : joinLines (keys0 ++ [k]) ++ (k ++ ['\n']) = joinLines (keys0 ++ [k] ++ [k]) := by
    simp [joinLines]
  have hwf1 : ∀ k0 ∈ keys0 ++ [k], wfKey k0 := by
    intro k0 hm
    rcases List.mem_append.mp hm with hm0 | hm0
    · exact hkeys k0 hm0
    · rw [List.mem_singleton.mp hm0]
      exact hk
  have hwf2 : ∀ k0 ∈ keys0 ++ [k] ++ [k], wfKey k0 := by
    intro k0 hm
    rcases List.mem_append.mp hm with hm0 | hm0
    · exact hwf1 k0 hm0
    · rw [List.mem_singleton.mp hm0]
      exact hk
  have hload : ∀ (ks : List (List Char)), (∀ k0 ∈ ks, wfKey k0) →
      load_set (joinLines ks) = ks := by
    intro ks hks
    have h := load_set_join_frag ks [] hks (by simp)
    simpa [trimWs] using h
  have h1 : load_set (joinLines keys0 ++ (k ++ ['\n'])) = keys0 ++ [k] := by
    rw [hjoin1]
    exact hload _ hwf1
  have h2 : load_set (joinLines (keys0 ++ [k]) ++ (k ++ ['\n'])) = keys0 ++ [k] ++ [k] := by
    rw [hjoin2]
    exact hload _ hwf2
  refine ⟨rfl, rfl, h1, ?_, ?_, ?_⟩
  · simpa [MongodbToRdfUpdated.mark_completed, List.append_assoc, hjoin1] using h2
  · have hmem : k ∈ keys0 ++ [k] := by simp
    simp [MongodbToRdfUpdated.should_process, MongodbToRdfUpdated.checkpoint_init,
      MongodbToRdfUpdated.mark_completed, h1, hmem]
  · have hmem : k ∈ keys0 ++ [k] ++ [k] := by simp
    have h2b : load_set ((joinLines keys0 ++ (k ++ ['\n'])) ++ (k ++ ['\n'])) =
        keys0 ++ [k] ++ [k] := by
      rw [hjoin1]
      exact h2
    simp [MongodbToRdfUpdated.should_process, MongodbToRdfUpdated.checkpoint_init,
      MongodbToRdfUpdated.mark_completed, List.append_assoc] at h2b ⊢
    simp [h2b, hmem]

/-- Witness for C2: the amended theorem applied to an empty store and
the key `a`. -/
theorem c2_witness :
    MongodbToRdfUpdated.should_process
      (MongodbToRdfUpdated.checkpoint_init
        (MongodbToRdfUpdated.mark_completed (MongodbToRdfUpdated.mark_completed
          { completedFile := joinLines [], failedFile := [], inProgressFile := none }
          ['a']) ['a'])).1 ['a'] = false :=
  (c2_theorem [] [] none ['a'] (by decide) (by decide)).2.2.2.2.2

/-- Claim C10: constructing a `ParallelCheckpointManager` reads but
does not change the completed and failed files and unconditionally
removes the in-progress file; since `process_analysis_worker` builds
its own manager before recording its in-progress entry, a worker start
erases every previously recorded in-progress entry and leaves only its
own. -/
theorem c10_theorem (fs : MongodbToRdfUpdated.CFS)
    (analysis_id worker_id timestamp : List Char) :
    ((MongodbToRdfUpdated.checkpoint_init fs).2.completedFile = fs.completedFile ∧
     (MongodbToRdfUpdated.checkpoint_init fs).2.failedFile = fs.failedFile ∧
     (MongodbToRdfUpdated.checkpoint_init fs).2.inProgressFile = none) ∧
    ((MongodbToRdfUpdated.worker_checkpoint_setup fs analysis_id worker_id
        timestamp).2.completedFile = fs.completedFile ∧
     (MongodbToRdfUpdated.worker_checkpoint_setup fs analysis_id worker_id
        timestamp).2.failedFile = fs.failedFile ∧
     (MongodbToRdfUpdated.worker_checkpoint_setup fs analysis_id worker_id
        timestamp).2.inProgressFile =
       some (MongodbToRdfUpdated.in_progress_entry analysis_id worker_id timestamp)) := by
  refine ⟨⟨rfl, rfl, rfl⟩, ⟨rfl, rfl, ?_⟩⟩
  simp [MongodbToRdfUpdated.worker_checkpoint_setup, MongodbToRdfUpdated.checkpoint_init,
    MongodbToRdfUpdated.mark_in_progress]

namespace MongodbToRdfUpdated

/-- `BATCH_SIZE` of `mongodb_to_rdf_updated.py`: marks per TTL file. -/
def BATCH_SIZE : Nat := 1000

/-- A mark as the worker consumes it: the `geometries.features` list,
each feature by its optional geometry (a missing or empty geometry
dict is `none`, which the codec maps to None).  The scalar properties
that `add_mark_to_ttl` also renders are abstracted as well typed; they
do not influence the batching counts, which are decided by the
geometry alone. -/
structure Mark where
  features : List (Option PGeom)

/-- The success bit of `add_mark_to_ttl`: false when the feature list
is empty or the geometry codec returns None, true otherwise. -/
def add_mark_success (m : Mark) (image_width image_height : Nat) : Bool :=
  match m.features with
  | [] => false
  | f :: _ => (polygon_to_wkt f image_width image_height).isSome

/-- The part of an analysis document the worker model consumes: its
string key and the image dimensions the header derives. -/
structure AnalysisDoc where
  analysisId : String
  image_width : Nat
  image_height : Nat

/-- Where the mark cursor of a worker run ended up. -/
inductive CursorState where
  | notOpened
  | opened
  | closed
deriving DecidableEq

/-- The environment of one worker run: the streamed marks, and the
outcomes of the effectful steps that can raise — the prelude
(checkpoint construction, in-progress mark, connection open, cursor
creation), the header construction (deterministic in the document),
and each batch file write. -/
structure WEnv where
  marks : List Mark
  setupOutcome : Except String Unit
  headerOutcome : Except String Unit
  writeOutcome : Nat → Except String Unit

/-- The loop state of the batching loop of `process_analysis_worker`. -/
structure LState where
  batchNum : Nat
  batchMarks : Nat
  processed : Nat
  skipped : Nat
  files : List (Nat × Nat)
deriving DecidableEq

/-- Loop state at the start of the stream: batch numbering starts at 1. -/
def initLState : LState :=
  { batchNum := 1, batchMarks := 0, processed := 0, skipped := 0, files := [] }

/-- The tuple a worker returns: `("completed", analysis_id, processed,
batch_num)` or `("failed", analysis_id, 0, 0, str(e))`. -/
inductive WResult where
  | completed (analysisId : String) (processed batchNum : Nat)
  | failed (analysisId : String) (z1 z2 : Nat) (err : String)
deriving DecidableEq

/-- Observable outcome of one worker run: the returned tuple, the
final cursor state, and the batch files written as (sequence number,
record count) pairs. -/
structure WOut where
  result : WResult
  cursor : CursorState
  files : List (Nat × Nat)

/-- The batching loop of `process_analysis_worker` (lines 513 to 568):
every streamed mark is offered to `add_mark_to_ttl`; a success
increments the batch and processed counters, a failure only the
skipped counter; at `BATCH_SIZE` accepted marks the batch file is
written, the batch number advances, and a fresh header is built.  A
raised exception carries the loop state reached so far. -/
def runLoop (env : WEnv) (doc : AnalysisDoc) :
    LState → List Mark → Except (String × LState) LState
  | s, [] => .ok s
  | s, m :: rest =>
    let s1 := if add_mark_success m doc.image_width doc.image_height
      then { s with batchMarks := s.batchMarks + 1, processed := s.processed + 1 }
      else { s with skipped := s.skipped + 1 }
    if s1.batchMarks ≥ BATCH_SIZE then
      match env.writeOutcome s1.batchNum with
      | .error e => .error (e, s1)
      | .ok _ =>
        let s2 : LState :=
          { batchNum := s1.batchNum + 1, batchMarks := 0, processed := s1.processed,
            skipped := s1.skipped, files := s1.files ++ [(s1.batchNum, s1.batchMarks)] }
        match env.headerOutcome with
        | .error e => .error (e, s2)
        | .ok _ => runLoop env doc s2 rest
    else runLoop env doc s1 rest

/-- `process_analysis_worker` of `mongodb_to_rdf_updated.py`: the
whole body is a `try` whose handler returns the failed tuple; the mark
cursor is opened after the prelude succeeds and closed by the inner
`finally` on success and failure alike; after the stream, a non-empty
final batch is flushed; the returned batch count is the final
`batch_num`. -/
def process_analysis_worker (env : WEnv) (doc : AnalysisDoc) : WOut :=
  match env.setupOutcome with
  | .error e => { result := .failed doc.analysisId 0 0 e, cursor := .notOpened, files := [] }
  | .ok _ =>
    match env.headerOutcome with
    | .error e => { result := .failed doc.analysisId 0 0 e, cursor := .closed, files := [] }
    | .ok _ =>
      match runLoop env doc initLState env.marks with
      | .error (e, s) =>
        { result := .failed doc.analysisId 0 0 e, cursor := .closed, files := s.files }
      | .ok s =>
        if s.batchMarks > 0 then
          match env.writeOutcome s.batchNum with
          | .error e =>
            { result := .failed doc.analysisId 0 0 e, cursor := .closed, files := s.files }
          | .ok _ =>
            { result := .completed doc.analysisId s.processed s.batchNum, cursor := .closed,
              files := s.files ++ [(s.batchNum, s.batchMarks)] }
        else
          { result := .completed doc.analysisId s.processed s.batchNum, cursor := .closed,
            files := s.files }

/-- A worker environment in which no effectful step fails. -/
def allOkEnv (marks : List Mark) : WEnv :=
  { marks := marks, setupOutcome := .ok (), headerOutcome := .ok (),
    writeOutcome := fun _ => .ok () }

end MongodbToRdfUpdated

/-- Claim C9: for every environment (any marks, any failure pattern of
the effectful steps) the worker returns either a completed tuple with
the analysis key or a failed tuple with the analysis key, zeros and
the error text — it never propagates an exception — and the mark
cursor is never left open. -/
theorem c9_theorem (env : MongodbToRdfUpdated.WEnv)
    (doc : MongodbToRdfUpdated.AnalysisDoc) :
    ((∃ p b, (MongodbToRdfUpdated.process_analysis_worker env doc).result =
        .completed doc.analysisId p b) ∨
     (∃ e, (MongodbToRdfUpdated.process_analysis_worker env doc).result =
        .failed doc.analysisId 0 0 e)) ∧
    (MongodbToRdfUpdated.process_analysis_worker env doc).cursor ≠
      MongodbToRdfUpdated.CursorState.opened := by
  cases hs : env.setupOutcome with
  | error e =>
    exact ⟨Or.inr ⟨e, by simp [MongodbToRdfUpdated.process_analysis_worker, hs]⟩,
      by simp [MongodbToRdfUpdated.process_analysis_worker, hs]⟩
  | ok u =>
    cases hh : env.headerOutcome with
    | error e =>
      exact ⟨Or.inr ⟨e, by simp [MongodbToRdfUpdated.process_analysis_worker, hs, hh]⟩,
        by simp [MongodbToRdfUpdated.process_analysis_worker, hs, hh]⟩
    | ok u2 =>
      cases hr : MongodbToRdfUpdated.runLoop env doc MongodbToRdfUpdated.initLState
          env.marks with
      | error p =>
        obtain ⟨e, s⟩ := p
        exact ⟨Or.inr ⟨e, by simp [MongodbToRdfUpdated.process_analysis_worker, hs, hh, hr]⟩,
          by simp [MongodbToRdfUpdated.process_analysis_worker, hs, hh, hr]⟩
      | ok s =>
        by_cases hbm : s.batchMarks > 0
        · cases hw : env.writeOutcome s.batchNum with
          | error e =>
            exact ⟨Or.inr ⟨e,
              by simp [MongodbToRdfUpdated.process_analysis_worker, hs, hh, hr, hbm, hw]⟩,
              by simp [MongodbToRdfUpdated.process_analysis_worker, hs, hh, hr, hbm, hw]⟩
          | ok u3 =>
            exact ⟨Or.inl ⟨s.processed, s.batchNum,
              by simp [MongodbToRdfUpdated.process_analysis_worker, hs, hh, hr, hbm, hw]⟩,
              by simp [MongodbToRdfUpdated.process_analysis_worker, hs, hh, hr, hbm, hw]⟩
        · exact ⟨Or.inl ⟨s.processed, s.batchNum,
            by simp [MongodbToRdfUpdated.process_analysis_worker, hs, hh, hr, hbm]⟩,
            by simp [MongodbToRdfUpdated.process_analysis_worker, hs, hh, hr, hbm]⟩

namespace MongodbToRdfUpdated

/-- The batching-relevant projection of the loop state (the skipped
counter is dropped: skipped marks influence nothing else). -/
structure PS where
  batchNum : Nat
  batchMarks : Nat
  processed : Nat
  files : List (Nat × Nat)
deriving DecidableEq

/-- Projection of a loop state. -/
def proj (s : LState) : PS :=
  { batchNum := s.batchNum, batchMarks := s.batchMarks, processed := s.processed,
    files := s.files }

/-- Effect of one accepted mark on the projected state: count it, and
flush a full batch. -/
def succT (s : PS) : PS :=
  if s.batchMarks + 1 ≥ BATCH_SIZE then
    { batchNum := s.batchNum + 1, batchMarks := 0, processed := s.processed + 1,
      files := s.files ++ [(s.batchNum, s.batchMarks + 1)] }
  else
    { batchNum := s.batchNum, batchMarks := s.batchMarks + 1,
      processed := s.processed + 1, files := s.files }

/-- Iteration of `succT`. -/
def succN : Nat → PS → PS
  | 0, s => s
  | n + 1, s => succN n (succT s)

theorem runLoop_ok_proj (env : WEnv) (doc : AnalysisDoc)
    (hw : ∀ n, env.writeOutcome n = .ok ()) (hh : env.headerOutcome = .ok ()) :
    ∀ (marks : List Mark) (s : LState), s.batchMarks < BATCH_SIZE →
    ∃ s2, runLoop env doc s marks = .ok s2 ∧ s2.batchMarks < BATCH_SIZE ∧
      proj s2 =
        succN (marks.countP fun m => add_mark_success m doc.image_width doc.image_height)
          (proj s) := by
  intro marks
  induction marks with
  | nil =>
    intro s hlt
    exact ⟨s, rfl, hlt, by simp [succN]⟩
  | cons m rest ih =>
    intro s hlt
    by_cases hm : add_mark_success m doc.image_width doc.image_height = true
    · by_cases hge : s.batchMarks + 1 ≥ BATCH_SIZE
      · have hrun : runLoop env doc s (m :: rest) =
            runLoop env doc
              { batchNum := s.batchNum + 1, batchMarks := 0, processed := s.processed + 1,
                skipped := s.skipped, files := s.files ++ [(s.batchNum, s.batchMarks + 1)] }
              rest := by
          simp only [runLoop, hm, if_true]
          rw [if_pos hge, hw, hh]
        obtain ⟨s2, h2, hlt2, hp2⟩ := ih
          { batchNum := s.batchNum + 1, batchMarks := 0, processed := s.processed + 1,
            skipped := s.skipped, files := s.files ++ [(s.batchNum, s.batchMarks + 1)] }
          (by simp [BATCH_SIZE])
        refine ⟨s2, by rw [hrun]; exact h2, hlt2, ?_⟩
        rw [List.countP_cons, hm]
        simp only [if_true]
        rw [show (rest.countP fun m => add_mark_success m doc.image_width doc.image_height)
            + 1 = Nat.succ (rest.countP fun m => add_mark_success m doc.image_width
              doc.image_height) from rfl]
        rw [succN]
        rw [hp2]
        congr 1
        simp [proj, succT, hge]
      · have hrun : runLoop env doc s (m :: rest) =
            runLoop env doc
              { s with batchMarks := s.batchMarks + 1, processed := s.processed + 1 }
              rest := by
          simp only [runLoop, hm, if_true]
          rw [if_neg hge]
        obtain ⟨s2, h2, hlt2, hp2⟩ := ih
          { s with batchMarks := s.batchMarks + 1, processed := s.processed + 1 }
          (by simpa using lt_of_not_ge hge)
        refine ⟨s2, by rw [hrun]; exact h2, hlt2, ?_⟩
        rw [List.countP_cons, hm]
        simp only [if_true]
        rw [show (rest.countP fun m => add_mark_success m doc.image_width doc.image_height)
            + 1 = Nat.succ (rest.countP fun m => add_mark_success m doc.image_width
              doc.image_height) from rfl]
        rw [succN]
        rw [hp2]
        congr 1
        simp [proj, succT, hge]
    · have hmf : add_mark_success m doc.image_width doc.image_height = false := by
        simpa using hm
      have hnotge : ¬ (s.batchMarks ≥ BATCH_SIZE) := not_le.mpr hlt
      have hrun : runLoop env doc s (m :: rest) =
          runLoop env doc { s with skipped := s.skipped + 1 } rest := by
        simp only [runLoop, hmf, Bool.false_eq_true, if_false]
        rw [if_neg hnotge]
      obtain ⟨s2, h2, hlt2, hp2⟩ := ih { s with skipped := s.skipped + 1 } hlt
      refine ⟨s2, by rw [hrun]; exact h2, hlt2, ?_⟩
      rw [List.countP_cons, hmf]
      simp only [Bool.false_eq_true, if_false, Nat.add_zero]
      rw [hp2]
      rfl

end MongodbToRdfUpdated

namespace MongodbToRdfUpdated

theorem succN_add (a b : Nat) (s : PS) : succN (a + b) s = succN b (succN a s) := by
  induction a generalizing s with
  | zero => simp [succN]
  | succ a ih =>
    rw [Nat.succ_add]
    rw [show succN ((a + b) + 1) s = succN (a + b) (succT s) from rfl]
    rw [ih (succT s)]
    rfl

theorem succN_fill (n bn bm p : Nat) (fs : List (Nat × Nat))
    (h : bm + n < BATCH_SIZE) :
    succN n { batchNum := bn, batchMarks := bm, processed := p, files := fs } =
      { batchNum := bn, batchMarks := bm + n, processed := p + n, files := fs } := by
  induction n generalizing bm p with
  | zero => simp [succN]
  | succ n ih =>
    have hlt : bm + 1 < BATCH_SIZE := by omega
    rw [show succN (n + 1) { batchNum := bn, batchMarks := bm, processed := p, files := fs }
        = succN n (succT { batchNum := bn, batchMarks := bm, processed := p, files := fs })
        from rfl]
    have hsucc : succT { batchNum := bn, batchMarks := bm, processed := p, files := fs } =
        { batchNum := bn, batchMarks := bm + 1, processed := p + 1, files := fs } := by
      simp [succT]
      omega
    rw [hsucc, ih (bm + 1) (p + 1) (by omega)]
    congr 1 <;> omega

theorem succN_batch (bn p : Nat) (fs : List (Nat × Nat)) :
    succN BATCH_SIZE { batchNum := bn, batchMarks := 0, processed := p, files := fs } =
      { batchNum := bn + 1, batchMarks := 0, processed := p + BATCH_SIZE,
        files := fs ++ [(bn, BATCH_SIZE)] } := by
  have h2 := succN_add (BATCH_SIZE - 1) 1
    { batchNum := bn, batchMarks := 0, processed := p, files := fs }
  have h3 := succN_fill (BATCH_SIZE - 1) bn 0 p fs (by decide)
  rw [show BATCH_SIZE = (BATCH_SIZE - 1) + 1 from by decide]
  rw [h2, h3]
  simp only [succN, succT, Nat.zero_add]
  rw [if_pos (by decide)]
  congr 1

theorem succN_total :
    succN (2 * BATCH_SIZE + 5)
      { batchNum := 1, batchMarks := 0, processed := 0, files := [] } =
    { batchNum := 3, batchMarks := 5, processed := 2 * BATCH_SIZE + 5,
      files := [(1, BATCH_SIZE), (2, BATCH_SIZE)] } := by
  rw [show 2 * BATCH_SIZE + 5 = BATCH_SIZE + (BATCH_SIZE + 5) by ring]
  rw [succN_add, succN_batch, succN_add, succN_batch]
  rw [succN_fill]
  · simp only [Nat.zero_add, List.nil_append]
    congr 1
  · decide

end MongodbToRdfUpdated

theorem countP_replicate {α : Type} (p : α → Bool) (a : α) (n : Nat) :
    (List.replicate n a).countP p = if p a then n else 0 := by
  induction n with
  | zero => simp
  | succ n ih =>
    rw [List.replicate_succ, List.countP_cons, ih]
    by_cases hp : p a <;> simp [hp]

/-- Claim C3: on a stream holding exactly `2 * BATCH_SIZE + 5` marks
accepted by `add_mark_to_ttl` (the geometry codec succeeded),
interleaved with any number of rejected marks, the worker writes
exactly three batch files with record counts `BATCH_SIZE`,
`BATCH_SIZE`, `5` and sequence numbers 1, 2, 3, and reports
`completed` with `2 * BATCH_SIZE + 5` processed marks in 3 batches;
rejected marks do not count toward `BATCH_SIZE`. -/
theorem c3_theorem (doc : MongodbToRdfUpdated.AnalysisDoc)
    (marks : List MongodbToRdfUpdated.Mark)
    (hcount : (marks.countP fun m =>
        MongodbToRdfUpdated.add_mark_success m doc.image_width doc.image_height) =
      2 * MongodbToRdfUpdated.BATCH_SIZE + 5) :
    (MongodbToRdfUpdated.process_analysis_worker
        (MongodbToRdfUpdated.allOkEnv marks) doc).files =
      [(1, MongodbToRdfUpdated.BATCH_SIZE), (2, MongodbToRdfUpdated.BATCH_SIZE), (3, 5)] ∧
    (MongodbToRdfUpdated.process_analysis_worker
        (MongodbToRdfUpdated.allOkEnv marks) doc).result =
      .completed doc.analysisId (2 * MongodbToRdfUpdated.BATCH_SIZE + 5) 3 := by
  obtain ⟨s2, hrun, hlt, hproj⟩ :=
    MongodbToRdfUpdated.runLoop_ok_proj (MongodbToRdfUpdated.allOkEnv marks) doc
      (fun n => rfl) rfl marks MongodbToRdfUpdated.initLState (by decide)
  rw [hcount] at hproj
  rw [show MongodbToRdfUpdated.proj MongodbToRdfUpdated.initLState =
      { batchNum := 1, batchMarks := 0, processed := 0, files := [] } from rfl] at hproj
  rw [MongodbToRdfUpdated.succN_total] at hproj
  have hbn : s2.batchNum = 3 := congrArg MongodbToRdfUpdated.PS.batchNum hproj
  have hbm : s2.batchMarks = 5 := congrArg MongodbToRdfUpdated.PS.batchMarks hproj
  have hp : s2.processed = 2 * MongodbToRdfUpdated.BATCH_SIZE + 5 :=
    congrArg MongodbToRdfUpdated.PS.processed hproj
  have hf : s2.files =
      [(1, MongodbToRdfUpdated.BATCH_SIZE), (2, MongodbToRdfUpdated.BATCH_SIZE)] :=
    congrArg MongodbToRdfUpdated.PS.files hproj
  have hsetup : (MongodbToRdfUpdated.allOkEnv marks).setupOutcome = .ok () := rfl
  have hheader : (MongodbToRdfUpdated.allOkEnv marks).headerOutcome = .ok () := rfl
  have hmarks : (MongodbToRdfUpdated.allOkEnv marks).marks = marks := rfl
  have hwrite : ∀ n, (MongodbToRdfUpdated.allOkEnv marks).writeOutcome n = .ok () :=
    fun n => rfl
  constructor
  · simp [MongodbToRdfUpdated.process_analysis_worker, hsetup, hheader, hmarks, hwrite,
      hrun, hbm, hbn, hf]
  · simp [MongodbToRdfUpdated.process_analysis_worker, hsetup, hheader, hmarks, hwrite,
      hrun, hbm, hbn, hp]

/-- A one-point polygon geometry for the worker witness. -/
def goodGeom : PGeom :=
  { type? := some (JVal.str "Polygon"),
    coordinates? := some (JVal.arr [JVal.arr [JVal.arr [JVal.num 0, JVal.num 0]]]) }

/-- A mark the codec accepts: one feature carrying `goodGeom`. -/
def goodMark : MongodbToRdfUpdated.Mark :=
  { features := [some goodGeom] }

/-- A mark the codec rejects: an empty feature list. -/
def badMark : MongodbToRdfUpdated.Mark := { features := [] }

/-- A concrete analysis document. -/
def docA : MongodbToRdfUpdated.AnalysisDoc :=
  { analysisId := "A1", image_width := 100, image_height := 100 }

/-- Witness for C3: the theorem applied to a stream of exactly
`2 * BATCH_SIZE + 5` accepted marks followed by one rejected mark. -/
theorem c3_witness :
    (MongodbToRdfUpdated.process_analysis_worker
        (MongodbToRdfUpdated.allOkEnv
          (List.replicate (2 * MongodbToRdfUpdated.BATCH_SIZE + 5) goodMark ++ [badMark]))
        docA).files =
      [(1, MongodbToRdfUpdated.BATCH_SIZE), (2, MongodbToRdfUpdated.BATCH_SIZE), (3, 5)] := by
  apply (c3_theorem docA _ ?_).1
  rw [List.countP_append, countP_replicate]
  have hgood : MongodbToRdfUpdated.add_mark_success goodMark docA.image_width
      docA.image_height = true := rfl
  have hbad : MongodbToRdfUpdated.add_mark_success badMark docA.image_width
      docA.image_height = false := rfl
  simp [hgood, hbad, List.countP_cons]

namespace MongodbToRdf

/-- Constructor parameters of `RotatingCheckpointManager`, plus the
on-disk size observation: the byte size of the saved JSON checkpoint
(`checkpoint_file.stat().st_size`) depends on the operating system and
the JSON encoder and is modelled as an environment-supplied function
of the saved content. -/
structure RConfig where
  max_size : Nat
  max_entries : Nat
  compress : Bool
  sizeFn : List String × List String → Nat

/-- State of a `RotatingCheckpointManager`: the working set and failed
set (Python dicts in insertion order, keyed by `exec:img`; the stored
per-key metadata is irrelevant to the checked properties and elided),
the entry counter, the saved checkpoint file content when the file
exists, the archive metadata list of (processed, failed) counts, and
the running totals. -/
structure RState where
  working_set : List String
  failed : List String
  entry_count : Nat
  checkpoint_file : Option (List String × List String)
  archives : List (Nat × Nat)
  total_processed : Nat
  total_failed : Nat

/-- The empty state of a manager constructed over a missing
checkpoint file. -/
def initRState : RState :=
  { working_set := [], failed := [], entry_count := 0, checkpoint_file := none,
    archives := [], total_processed := 0, total_failed := 0 }

/-- Python dict insertion: an existing key keeps its position, a new
key is appended. -/
def dictInsert (l : List String) (k : String) : List String :=
  if k ∈ l then l else l ++ [k]

theorem dictInsert_mem_self (l : List String) (k : String) : k ∈ dictInsert l k := by
  unfold dictInsert
  by_cases h : k ∈ l
  · rw [if_pos h]
    exact h
  · rw [if_neg h]
    simp

theorem dictInsert_mem_of_mem (l : List String) (k k2 : String) (h : k2 ∈ l) :
    k2 ∈ dictInsert l k := by
  unfold dictInsert
  by_cases hm : k ∈ l
  · rw [if_pos hm]
    exact h
  · rw [if_neg hm]
    exact List.mem_append_left _ h

/-- The checkpoint key `f"{exec_id}:{img_id}"`. -/
def analysis_key (exec_id img_id : String) : String := exec_id ++ ":" ++ img_id

/-- `_check_archives`: the source always answers False ("we will
assume if it is not in working set, it is not processed"). -/
def check_archives (_s : RState) (_key : String) : Bool := false

/-- `is_processed`: membership in the working set, else the archive
check. -/
def is_processed (s : RState) (exec_id img_id : String) : Bool :=
  decide (analysis_key exec_id img_id ∈ s.working_set) ||
  check_archives s (analysis_key exec_id img_id)

/-- `save`: write the working and failed sets to the checkpoint file. -/
def save (s : RState) : RState :=
  { s with checkpoint_file := some (s.working_set, s.failed) }

/-- `_should_rotate`: the file size exceeds `max_size`, or the entry
count exceeds `max_entries`. -/
def should_rotate (cfg : RConfig) (s : RState) : Bool :=
  (match s.checkpoint_file with
   | some c => decide (cfg.sizeFn c > cfg.max_size)
   | none => false) ||
  decide (s.entry_count > cfg.max_entries)

/-- `_rotate_checkpoint`: archive the current file (the original file
remains when compressing, is moved away otherwise), append the archive
metadata, add to the totals, keep only the most recent 1000 working
keys (all are dropped when there are at most 1000), and clear the
failed set. -/
def rotate_checkpoint (cfg : RConfig) (s : RState) : RState :=
  match s.checkpoint_file with
  | none => s
  | some _ =>
    let working2 := if s.working_set.length > 1000
      then s.working_set.drop (s.working_set.length - 1000) else []
    { working_set := working2, failed := [], entry_count := working2.length,
      checkpoint_file := if cfg.compress then s.checkpoint_file else none,
      archives := s.archives ++ [(s.working_set.length, s.failed.length)],
      total_processed := s.total_processed + s.working_set.length,
      total_failed := s.total_failed + s.failed.length }

/-- The in-memory effect of `mark_processed` before the rotation
check: insert the key and bump the entry counter. -/
def insertState (s : RState) (exec_id img_id : String) : RState :=
  { s with
    working_set := dictInsert s.working_set (analysis_key exec_id img_id),
    entry_count := s.entry_count + 1 }

/-- `mark_processed`: insert the key, bump the entry count, and when
rotation is due, save and rotate.  The flag reports whether a rotation
happened. -/
def mark_processed (cfg : RConfig) (s : RState) (exec_id img_id : String) :
    RState × Bool :=
  if should_rotate cfg (insertState s exec_id img_id) then
    (rotate_checkpoint cfg (save (insertState s exec_id img_id)), true)
  else (insertState s exec_id img_id, false)

/-- `mark_failed`: record the key in the failed set; no rotation
check. -/
def mark_failed (s : RState) (exec_id img_id _err : String) : RState :=
  { s with failed := dictInsert s.failed (analysis_key exec_id img_id) }

/-- The operations a run of the manager performs after construction. -/
inductive RStep where
  | markP (exec_id img_id : String)
  | markF (exec_id img_id err : String)
  | doSave

/-- One operation, with the rotation flag. -/
def step_flag (cfg : RConfig) (s : RState) : RStep → RState × Bool
  | .markP e i => mark_processed cfg s e i
  | .markF e i err => (mark_failed s e i err, false)
  | .doSave => (save s, false)

/-- A sequence of operations; the flag reports whether any rotation
happened along the way. -/
def run_steps (cfg : RConfig) : RState → List RStep → RState × Bool
  | s, [] => (s, false)
  | s, st :: rest =>
    match step_flag cfg s st with
    | (s1, f1) =>
      match run_steps cfg s1 rest with
      | (s2, f2) => (s2, f1 || f2)

theorem step_preserves_mem (cfg : RConfig) (s : RState) (st : RStep) (k : String)
    (hmem : k ∈ s.working_set) (hflag : (step_flag cfg s st).2 = false) :
    k ∈ (step_flag cfg s st).1.working_set := by
  cases st with
  | markP e i =>
    simp only [step_flag, mark_processed] at hflag ⊢
    by_cases hrot : should_rotate cfg (insertState s e i) = true
    · rw [if_pos hrot] at hflag
      simp at hflag
    · rw [if_neg hrot] at hflag ⊢
      exact dictInsert_mem_of_mem _ _ _ hmem
  | markF e i err => exact hmem
  | doSave => exact hmem

theorem run_steps_preserves (cfg : RConfig) :
    ∀ (steps : List RStep) (s : RState) (k : String), k ∈ s.working_set →
    (run_steps cfg s steps).2 = false → k ∈ (run_steps cfg s steps).1.working_set := by
  intro steps
  induction steps with
  | nil =>
    intro s k hmem _
    exact hmem
  | cons st rest ih =>
    intro s k hmem hflag
    rcases hstep : step_flag cfg s st with ⟨s1, f1⟩
    rcases hrun : run_steps cfg s1 rest with ⟨s2, f2⟩
    have hresult : run_steps cfg s (st :: rest) = (s2, f1 || f2) := by
      simp only [run_steps, hstep, hrun]
    rw [hresult] at hflag ⊢
    simp only at hflag
    have hf1 : f1 = false := by
      cases f1 <;> simp_all
    have hf2 : f2 = false := by
      cases f2 <;> simp_all
    have hmem1 : k ∈ s1.working_set := by
      have := step_preserves_mem cfg s st k hmem (by rw [hstep, hf1])
      rwa [hstep] at this
    have := ih s1 k hmem1 (by rw [hrun, hf2])
    rwa [hrun] at this

end MongodbToRdf

/-- Claim C1 (amended): a key marked completed stays `is_processed =
True` through every later state of the same store as long as no
checkpoint rotation occurs; a rotation keeps only the 1000 most recent
working-set keys (all when there are at most 1000 are dropped) and the
archive check always answers False, so a key dropped by a rotation is
reported unprocessed and can be re-dispatched. -/
theorem c1_theorem (cfg : MongodbToRdf.RConfig) (s : MongodbToRdf.RState)
    (exec_id img_id : String) (rest : List MongodbToRdf.RStep)
    (hflag : (MongodbToRdf.run_steps cfg s
        (MongodbToRdf.RStep.markP exec_id img_id :: rest)).2 = false) :
    MongodbToRdf.is_processed
      (MongodbToRdf.run_steps cfg s
        (MongodbToRdf.RStep.markP exec_id img_id :: rest)).1 exec_id img_id = true := by
  rcases hstep : MongodbToRdf.step_flag cfg s (MongodbToRdf.RStep.markP exec_id img_id)
    with ⟨s1, f1⟩
  rcases hrun : MongodbToRdf.run_steps cfg s1 rest with ⟨s2, f2⟩
  have hresult : MongodbToRdf.run_steps cfg s
      (MongodbToRdf.RStep.markP exec_id img_id :: rest) = (s2, f1 || f2) := by
    simp only [MongodbToRdf.run_steps, hstep, hrun]
  rw [hresult] at hflag ⊢
  simp only at hflag
  have hf1 : f1 = false := by
    cases f1 <;> simp_all
  have hf2 : f2 = false := by
    cases f2 <;> simp_all
  have hmem1 : MongodbToRdf.analysis_key exec_id img_id ∈ s1.working_set := by
    have hsf := hstep
    simp only [MongodbToRdf.step_flag, MongodbToRdf.mark_processed] at hsf
    by_cases hrot : MongodbToRdf.should_rotate cfg
        (MongodbToRdf.insertState s exec_id img_id) = true
    · rw [if_pos hrot] at hsf
      have : f1 = true := (Prod.mk.injEq _ _ _ _ |>.mp hsf).2.symm
      rw [hf1] at this
      exact absurd this (by simp)
    · rw [if_neg hrot] at hsf
      have hs1 : s1 = MongodbToRdf.insertState s exec_id img_id :=
        ((Prod.mk.injEq _ _ _ _ |>.mp hsf).1).symm
      rw [hs1]
      exact MongodbToRdf.dictInsert_mem_self _ _
  have hmem2 : MongodbToRdf.analysis_key exec_id img_id ∈ s2.working_set := by
    have := MongodbToRdf.run_steps_preserves cfg rest s1
      (MongodbToRdf.analysis_key exec_id img_id) hmem1 (by rw [hrun, hf2])
    rwa [hrun] at this
  simp [MongodbToRdf.is_processed, MongodbToRdf.check_archives, hmem2]

/-- A concrete rotating configuration: rotation after one entry, with
compression, over an environment where the saved file is small. -/
def cfgSmall : MongodbToRdf.RConfig :=
  { max_size := 10485760, max_entries := 1, compress := true, sizeFn := fun _ => 0 }

/-- Counterexample to claim C1 as stated: with `max_entries = 1`,
marking `e1:i1` completed and then marking `e2:i2` completed triggers
a rotation that clears the whole working set (it holds at most 1000
keys), and since `_check_archives` always answers False,
`is_processed(e1, i1)` is False in the later state of the same store
even though the key was marked completed and never removed
explicitly. -/
theorem c1_counterexample :
    MongodbToRdf.is_processed
      (MongodbToRdf.run_steps cfgSmall MongodbToRdf.initRState
        [MongodbToRdf.RStep.markP "e1" "i1", MongodbToRdf.RStep.markP "e2" "i2"]).1
      "e1" "i1" = false ∧
    MongodbToRdf.is_processed
      (MongodbToRdf.run_steps cfgSmall MongodbToRdf.initRState
        [MongodbToRdf.RStep.markP "e1" "i1"]).1 "e1" "i1" = true := by
  constructor
  · decide
  · decide

/-- A rotating configuration with the production thresholds, over an
environment where the saved file stays small. -/
def cfgLarge : MongodbToRdf.RConfig :=
  { max_size := 10485760, max_entries := 50000, compress := true, sizeFn := fun _ => 0 }

/-- Witness for C1: under the production thresholds, marking `e1:i1`
and then performing a failed mark, a save, and another completed mark
rotates nothing, and the key stays processed. -/
theorem c1_witness :
    MongodbToRdf.is_processed
      (MongodbToRdf.run_steps cfgLarge MongodbToRdf.initRState
        [MongodbToRdf.RStep.markP "e1" "i1", MongodbToRdf.RStep.markF "x" "y" "err",
         MongodbToRdf.RStep.doSave, MongodbToRdf.RStep.markP "e2" "i2"]).1
      "e1" "i1" = true :=
  c1_theorem cfgLarge MongodbToRdf.initRState "e1" "i1"
    [MongodbToRdf.RStep.markF "x" "y" "err", MongodbToRdf.RStep.doSave,
     MongodbToRdf.RStep.markP "e2" "i2"] (by decide)

namespace ProcessNullMarks

/-- The hex alphabet of `create_id_ranges`. -/
def hex_chars : List Char := "0123456789abcdef".data

/-- Lexicographic comparison on characters by code point, the order
the data store applies to id strings. -/
def lexLt : List Char → List Char → Bool
  | [], [] => false
  | [], _ :: _ => true
  | _ :: _, [] => false
  | a :: as, b :: bs =>
    if a.toNat < b.toNat then true
    else if b.toNat < a.toNat then false
    else lexLt as bs

/-- Strict order on id strings. -/
def idLt (a b : String) : Bool := lexLt a.data b.data

/-- Reflexive order on id strings. -/
def idLe (a b : String) : Bool := !(idLt b a)

/-- The predicate of the range query `get_id_range_query` builds:
`_id >= range_start` and `_id < range_end`. -/
def matches_range_query (range_start range_end id : String) : Bool :=
  idLe range_start id && idLt id range_end

/-- `ranges[-1] = (ranges[-1][0], "f" * 24)`. -/
def replaceLastEnd : List (String × String) → List (String × String)
  | [] => []
  | [r] => [(r.1, String.mk (List.replicate 24 'f'))]
  | r :: rest => r :: replaceLastEnd rest

/-- `create_id_ranges` of `process_null_marks.py`: step through the
hex alphabet in strides of `max(1, 16 // n)`, emit for each stride the
range from `start_char + 23 * "0"` to `hex_chars[min(i + stride, 15)]
+ 23 * "f"`, stop once `n` ranges exist, and widen the last range end
to 24 * `"f"`. -/
def create_id_ranges (num_ranges : Nat) : List (String × String) :=
  let chars_per_range := max 1 (16 / num_ranges)
  let idxs := (List.range 16).filter fun i => i % chars_per_range = 0
  let ranges := (idxs.map fun i =>
    (String.mk (hex_chars.getD i '0' :: List.replicate 23 '0'),
     String.mk (hex_chars.getD (min (i + chars_per_range) 15) 'f' ::
       List.replicate 23 'f'))).take num_ranges
  replaceLastEnd ranges

end ProcessNullMarks

/-- Claim C7 evaluation: `create_id_ranges 4` returns 4 ranges, but
they are not pairwise disjoint — the identifier `4` followed by 23
zeros is matched by the range queries of two work units — and they do
not cover the identifier space — the identifier of 24 `f` characters
is matched by none. -/
theorem c7_theorem :
    (ProcessNullMarks.create_id_ranges 4).length = 4 ∧
    (ProcessNullMarks.create_id_ranges 4).countP
      (fun r => ProcessNullMarks.matches_range_query r.1 r.2
        "400000000000000000000000") = 2 ∧
    (ProcessNullMarks.create_id_ranges 4).countP
      (fun r => ProcessNullMarks.matches_range_query r.1 r.2
        "ffffffffffffffffffffffff") = 0 := by
  refine ⟨?_, ?_, ?_⟩
  · decide
  · decide
  · decide
